import Mathlib

/-!
Verification of the Bookmark-Knowledge-Base content pipeline.

Shallow embedding of the Python sources:
  * `src/shared/title_utils.py`     (truncate_title, sanitize_title, validate_title_quality)
  * `src/shared/analysis_utils.py`  (parse_gemini_analysis, validate_analysis_sections)
  * `src/webpage-enricher/main.py`  (fetch_webpage, enrich_webpage, find_episode_in_rss)
  * `src/tests/unit/test_notification_logic.py` (is_error)

Python strings are modelled as `List Char`; Python floats as `ℚ`;
absent/`None` values as `Option`; fallible code as `Except`/sum results.
External collaborators (HTTP fetching, feed parsing, difflib's ratio,
the AI services) are parameters or input data of the embedded functions.
-/

/-- Python `str.isspace` character set (the whitespace that `str.split()`,
`str.strip()` and friends act on), written out by code point. -/
def pyIsSpaceB (c : Char) : Bool :=
  (0x09 ≤ c.val && c.val ≤ 0x0D) || (0x1C ≤ c.val && c.val ≤ 0x20) ||
  c.val == 0x85 || c.val == 0xA0 || c.val == 0x1680 ||
  (0x2000 ≤ c.val && c.val ≤ 0x200A) ||
  c.val == 0x2028 || c.val == 0x2029 || c.val == 0x202F ||
  c.val == 0x205F || c.val == 0x3000

/-- Accumulator loop behind `pySplit`: `acc` holds the reversed current
word. -/
def pySplitAux : List Char → List Char → List (List Char)
  | [], acc => if acc = [] then [] else [acc.reverse]
  | c :: cs, acc =>
    if pyIsSpaceB c then
      if acc = [] then pySplitAux cs [] else acc.reverse :: pySplitAux cs []
    else pySplitAux cs (c :: acc)

/-- Python `str.split()` with no arguments: maximal runs of
non-whitespace characters, discarding all whitespace. -/
def pySplit (l : List Char) : List (List Char) :=
  pySplitAux l []

/-- `' '.join(words)`. -/
def joinSpace : List (List Char) → List Char
  | [] => []
  | [w] => w
  | w :: ws => w ++ ' ' :: joinSpace ws

/-- `' '.join(s.split())`: collapse whitespace runs to single spaces and
strip the ends, exactly as `truncate_title` and `sanitize_title` do. -/
def collapseWs (l : List Char) : List Char :=
  joinSpace (pySplit l)

/-- Python `str.rstrip()` (whitespace). -/
def pyRstrip (l : List Char) : List Char :=
  (l.reverse.dropWhile pyIsSpaceB).reverse

/-- Python `str.strip()` (whitespace). -/
def pyStrip (l : List Char) : List Char :=
  pyRstrip (l.dropWhile pyIsSpaceB)

/-- Python slice `s[:k]` for an `int` index `k` (negative indices count
from the end, clamped at 0). -/
def pySliceTo (l : List Char) (k : Int) : List Char :=
  if 0 ≤ k then l.take k.toNat else l.take ((l.length : Int) + k).toNat

/-- Python `str.rfind(c)`: index of the last occurrence, `none` for the
`-1` no-occurrence result. -/
def rfind : List Char → Char → Option Nat
  | [], _ => none
  | a :: as, c =>
    match rfind as c with
    | some i => some (i + 1)
    | none => if a = c then some 0 else none

/-- `truncate_title` from `src/shared/title_utils.py`:
whitespace-collapse, return unchanged when within the limit, otherwise
cut at the last space before the limit (right-trimmed), or, when the
prefix holds no space, cut to `max_length-3` and append `'...'`. -/
def truncate_title (title : List Char) (max_length : Int := 70) :
    List Char × Bool :=
  if title = [] then ([], false)
  else
    let t := collapseWs title
    if (t.length : Int) ≤ max_length then (t, false)
    else
      let truncated := pySliceTo t max_length
      match rfind truncated ' ' with
      | none => (pySliceTo t (max_length - 3) ++ ['.', '.', '.'], true)
      | some i => (pyRstrip (truncated.take i), true)

lemma length_dropWhile_le_self (p : Char → Bool) (l : List Char) :
    (l.dropWhile p).length ≤ l.length := by
  induction l with
  | nil => simp [List.dropWhile]
  | cons a as ih =>
    simp only [List.dropWhile]
    split
    · exact Nat.le_succ_of_le ih
    · simp

lemma length_pyRstrip_le (l : List Char) : (pyRstrip l).length ≤ l.length := by
  simpa [pyRstrip] using length_dropWhile_le_self pyIsSpaceB l.reverse

lemma rfind_spec {l : List Char} {c : Char} {i : Nat}
    (h : rfind l c = some i) : i < l.length ∧ l[i]? = some c := by
  induction l generalizing i with
  | nil => simp [rfind] at h
  | cons a as ih =>
    rw [rfind] at h
    cases hr : rfind as c with
    | some j =>
      rw [hr] at h
      injection h with h
      subst h
      have := ih hr
      simp only [List.length_cons, List.getElem?_cons_succ]
      exact ⟨Nat.succ_lt_succ this.1, this.2⟩
    | none =>
      rw [hr] at h
      by_cases hac : a = c
      · rw [if_pos hac] at h
        injection h with h
        subst h
        simp [hac]
      · rw [if_neg hac] at h
        simp at h

lemma rfind_none_not_mem {l : List Char} {c : Char}
    (h : rfind l c = none) : c ∉ l := by
  induction l with
  | nil => simp
  | cons a as ih =>
    rw [rfind] at h
    cases hr : rfind as c with
    | some j => rw [hr] at h; simp at h
    | none =>
      rw [hr] at h
      by_cases hac : a = c
      · rw [if_pos hac] at h; simp at h
      · rw [if_neg hac] at h
        simp only [List.mem_cons, not_or]
        exact ⟨fun hca => hac hca.symm, ih hr⟩

lemma pySliceTo_eq_take (l : List Char) (k : Int) :
    ∃ n : Nat, pySliceTo l k = l.take n := by
  unfold pySliceTo
  split
  · exact ⟨k.toNat, rfl⟩
  · exact ⟨((l.length : Int) + k).toNat, rfl⟩

lemma length_pySliceTo_le (l : List Char) {k : Int} (hk : 0 ≤ k) :
    ((pySliceTo l k).length : Int) ≤ k := by
  unfold pySliceTo
  rw [if_pos hk, List.length_take]
  have := Int.toNat_of_nonneg hk
  omega

/-- C3 (amended):  For every string `S` and every limit `L ≥ 3`,
`truncate_title S L` returns a first component of length at most `L`,
and whenever it reports `was_truncated = false` the returned string is
`S` with whitespace runs collapsed to single spaces (the `L ≥ 3` bound
is forced: for `L < 3` the single-token branch computes the Python
slice `title[:L-3]` with a negative index, keeping almost the whole
string). -/
theorem truncate_length_bound_and_identity :
    (∀ (S : List Char) (L : Int), 3 ≤ L →
      (((truncate_title S L).1.length : Int) ≤ L)) ∧
    (∀ (S : List Char) (L : Int), (truncate_title S L).2 = false →
      (truncate_title S L).1 = collapseWs S) := by
  constructor
  · intro S L hL
    by_cases hS : S = []
    · simp [truncate_title, hS]; omega
    · rw [truncate_title, if_neg hS]
      by_cases hlen : ((collapseWs S).length : Int) ≤ L
      · simp [hlen]
      · simp only [if_neg hlen]
        cases hr : rfind (pySliceTo (collapseWs S) L) ' ' with
        | none =>
          simp only [hr, List.length_append, List.length_cons,
            List.length_nil]
          have h3 : ((pySliceTo (collapseWs S) (L - 3)).length : Int) ≤ L - 3 :=
            length_pySliceTo_le _ (by omega)
          push_cast
          omega
        | some i =>
          simp only [hr]
          have hi := (rfind_spec hr).1
          have h1 : (pyRstrip ((pySliceTo (collapseWs S) L).take i)).length ≤
              ((pySliceTo (collapseWs S) L).take i).length :=
            length_pyRstrip_le _
          have h2 : ((pySliceTo (collapseWs S) L).take i).length ≤ i := by
            simp [List.length_take]
          have h4 : ((pySliceTo (collapseWs S) L).length : Int) ≤ L :=
            length_pySliceTo_le _ (by omega)
          omega
  · intro S L h
    by_cases hS : S = []
    · simp [truncate_title, hS, collapseWs, pySplit, pySplitAux, joinSpace]
    · rw [truncate_title, if_neg hS] at h ⊢
      by_cases hlen : ((collapseWs S).length : Int) ≤ L
      · simp [hlen]
      · exfalso
        simp only [if_neg hlen] at h
        cases hr : rfind (pySliceTo (collapseWs S) L) ' ' with
        | none => rw [hr] at h; simp at h
        | some i => rw [hr] at h; simp at h

/-- Witness for `truncate_length_bound_and_identity` at concrete inputs. -/
theorem truncate_length_bound_and_identity_witness :
    ((3 : Int) ≤ 20 ∧
      (((truncate_title "This is a very long title that exceeds the limit".data
          20).1.length : Int) ≤ 20)) ∧
    ((truncate_title "Hello World".data 70).2 = false ∧
      (truncate_title "Hello World".data 70).1 = collapseWs "Hello World".data) :=
  ⟨⟨by decide,
    truncate_length_bound_and_identity.1
      "This is a very long title that exceeds the limit".data 20 (by decide)⟩,
   ⟨by decide,
    truncate_length_bound_and_identity.2 "Hello World".data 70 (by decide)⟩⟩

/-- C3 fails as stated: at limit `L = 0` the input `"a b"` yields
`("...", true)` whose first component has length `3 > 0`. -/
theorem truncate_length_bound_counterexample :
    ¬ (((truncate_title "a b".data 0).1.length : Int) ≤ 0) := by decide

/-- C7:  Truncation never splits a word: the result is the
whitespace-collapsed original, or the collapsed original cut at a space
boundary and right-trimmed, or — only when the length-limited prefix
contains no space — a slice ended with an ellipsis; and the end-to-end
scenario from the spec holds. -/
theorem truncate_word_boundary :
    (∀ (S : List Char) (L : Int),
      (truncate_title S L).1 = collapseWs S ∨
      (∃ i, (collapseWs S)[i]? = some ' ' ∧
        (truncate_title S L).1 = pyRstrip ((collapseWs S).take i)) ∨
      (' ' ∉ pySliceTo (collapseWs S) L ∧
        (truncate_title S L).1 =
          pySliceTo (collapseWs S) (L - 3) ++ ['.', '.', '.'])) ∧
    truncate_title "This is a very long title that exceeds the limit".data 20 =
      ("This is a very long".data, true) := by
  constructor
  · intro S L
    by_cases hS : S = []
    · left
      simp [truncate_title, hS, collapseWs, pySplit, pySplitAux, joinSpace]
    · rw [truncate_title, if_neg hS]
      by_cases hlen : ((collapseWs S).length : Int) ≤ L
      · left; simp [hlen]
      · simp only [if_neg hlen]
        cases hr : rfind (pySliceTo (collapseWs S) L) ' ' with
        | none =>
          right; right
          exact ⟨rfind_none_not_mem hr, by simp [hr]⟩
        | some i =>
          right; left
          obtain ⟨hi, hget⟩ := rfind_spec hr
          obtain ⟨n, hn⟩ := pySliceTo_eq_take (collapseWs S) L
          have hin : i < n := by
            rw [hn] at hi
            simp only [List.length_take, lt_min_iff] at hi
            exact hi.1
          refine ⟨i, ?_, ?_⟩
          · rw [hn] at hget
            rwa [List.getElem?_take_of_lt hin] at hget
          · simp only [hr]
            rw [hn, List.take_take, Nat.min_eq_left hin.le]
  · decide

/-- Python control-character ranges `0x00-0x1F` and `0x7F-0x9F` removed
by `sanitize_title`'s first `re.sub`. -/
def isControlChar (c : Char) : Bool :=
  c.val ≤ 0x1F || (0x7F ≤ c.val && c.val ≤ 0x9F)

/-- ASCII fragment of Python `str.isalnum` (the sanitize theorems below
do not depend on how the classifier extends beyond ASCII). -/
def pyIsAlnumB (c : Char) : Bool :=
  c.isAlphanum

/-- Punctuation allow-list of `sanitize_title`: `.,!?-:;'"()[]`. -/
def sanitizeAllowedPunct : List Char :=
  ['.', ',', '!', '?', '-', ':', ';', '\'', '"', '(', ')', '[', ']']

/-- Per-character keep predicate of `sanitize_title`:
`c.isalnum() or c.isspace() or c in '.,!?-:;\'"()[]'`. -/
def sanitizeKeep (c : Char) : Bool :=
  pyIsAlnumB c || pyIsSpaceB c || sanitizeAllowedPunct.contains c

/-- `sanitize_title` from `src/shared/title_utils.py`: strip control
characters, keep only alphanumerics, whitespace and the punctuation
allow-list, then collapse whitespace. -/
def sanitize_title (title : List Char) : List Char :=
  if title = [] then []
  else collapseWs ((title.filter (fun c => !isControlChar c)).filter sanitizeKeep)

lemma joinSpace_cons_cons (w w' : List Char) (ws : List (List Char)) :
    joinSpace (w :: w' :: ws) = w ++ ' ' :: joinSpace (w' :: ws) := rfl

lemma mem_joinSpace {c : Char} :
    ∀ {ws : List (List Char)}, c ∈ joinSpace ws →
      c = ' ' ∨ ∃ w ∈ ws, c ∈ w := by
  intro ws
  induction ws with
  | nil => simp [joinSpace]
  | cons w ws ih =>
    cases ws with
    | nil => intro h; exact Or.inr ⟨w, by simp, by simpa [joinSpace] using h⟩
    | cons w' rest =>
      intro h
      rw [joinSpace_cons_cons] at h
      rcases List.mem_append.1 h with hw | hw
      · exact Or.inr ⟨w, by simp, hw⟩
      · rcases List.mem_cons.1 hw with rfl | hw
        · exact Or.inl rfl
        · rcases ih hw with h1 | ⟨u, hu, hcu⟩
          · exact Or.inl h1
          · exact Or.inr ⟨u, List.mem_cons_of_mem _ hu, hcu⟩

lemma pySplitAux_mem {w : List Char} :
    ∀ {l acc : List Char}, (∀ c ∈ acc, pyIsSpaceB c = false) →
      w ∈ pySplitAux l acc →
      w ≠ [] ∧ (∀ c ∈ w, pyIsSpaceB c = false) ∧ (∀ c ∈ w, c ∈ l ∨ c ∈ acc) := by
  intro l
  induction l with
  | nil =>
    intro acc hacc hw
    rw [pySplitAux] at hw
    split at hw
    · simp at hw
    · next hne =>
      rcases List.mem_singleton.1 hw with rfl
      refine ⟨by simpa using hne, ?_, ?_⟩
      · intro c hc; exact hacc c (List.mem_reverse.1 hc)
      · intro c hc; exact Or.inr (List.mem_reverse.1 hc)
  | cons a as ih =>
    intro acc hacc hw
    rw [pySplitAux] at hw
    by_cases hsp : pyIsSpaceB a
    · rw [if_pos hsp] at hw
      by_cases hae : acc = []
      · rw [if_pos hae] at hw
        obtain ⟨h1, h2, h3⟩ := ih (by simp) hw
        exact ⟨h1, h2, fun c hc => (h3 c hc).imp (List.mem_cons_of_mem _)
          (by simp)⟩
      · rw [if_neg hae] at hw
        rcases List.mem_cons.1 hw with rfl | hw
        · refine ⟨by simpa using hae, ?_, ?_⟩
          · intro c hc; exact hacc c (List.mem_reverse.1 hc)
          · intro c hc; exact Or.inr (List.mem_reverse.1 hc)
        · obtain ⟨h1, h2, h3⟩ := ih (by simp) hw
          exact ⟨h1, h2, fun c hc => (h3 c hc).imp (List.mem_cons_of_mem _)
            (by simp)⟩
    · rw [if_neg hsp] at hw
      have hacc' : ∀ c ∈ a :: acc, pyIsSpaceB c = false := by
        intro c hc
        rcases List.mem_cons.1 hc with rfl | hc
        · exact Bool.eq_false_iff.2 hsp
        · exact hacc c hc
      obtain ⟨h1, h2, h3⟩ := ih hacc' hw
      refine ⟨h1, h2, fun c hc => ?_⟩
      rcases h3 c hc with hcl | hca
      · exact Or.inl (List.mem_cons_of_mem _ hcl)
      · rcases List.mem_cons.1 hca with rfl | hca
        · exact Or.inl (List.mem_cons_self _ _)
        · exact Or.inr hca

lemma pySplitAux_word :
    ∀ (w rest acc : List Char), (∀ c ∈ w, pyIsSpaceB c = false) →
      pySplitAux (w ++ rest) acc = pySplitAux rest (w.reverse ++ acc) := by
  intro w
  induction w with
  | nil => intro rest acc _; simp
  | cons a w' ih =>
    intro rest acc hns
    have ha : pyIsSpaceB a = false := hns a (List.mem_cons_self _ _)
    rw [List.cons_append, pySplitAux, ha]
    simp only [Bool.false_eq_true, if_false]
    rw [ih rest (a :: acc) (fun c hc => hns c (List.mem_cons_of_mem _ hc))]
    congr 1
    simp

lemma pySplit_joinSpace :
    ∀ (ws : List (List Char)),
      (∀ w ∈ ws, w ≠ [] ∧ ∀ c ∈ w, pyIsSpaceB c = false) →
      pySplit (joinSpace ws) = ws := by
  intro ws
  induction ws with
  | nil => intro _; rfl
  | cons w ws ih =>
    intro h
    obtain ⟨hw, hns⟩ := h w (List.mem_cons_self _ _)
    cases ws with
    | nil =>
      show pySplitAux (joinSpace [w]) [] = [w]
      rw [joinSpace, ← List.append_nil w, pySplitAux_word w [] [] hns]
      rw [pySplitAux]
      rw [if_neg (by simpa using hw)]
      simp
    | cons w' rest =>
      show pySplitAux (joinSpace (w :: w' :: rest)) [] = w :: w' :: rest
      rw [joinSpace_cons_cons,
        pySplitAux_word w (' ' :: joinSpace (w' :: rest)) [] hns]
      rw [pySplitAux, if_pos (by decide)]
      rw [if_neg (by simpa using hw)]
      rw [List.append_nil, List.reverse_reverse]
      congr 1
      exact ih (fun u hu => h u (List.mem_cons_of_mem _ hu))

lemma pySplit_parts {l w : List Char} (hw : w ∈ pySplit l) :
    w ≠ [] ∧ (∀ c ∈ w, pyIsSpaceB c = false) ∧ ∀ c ∈ w, c ∈ l := by
  obtain ⟨h1, h2, h3⟩ := @pySplitAux_mem w l [] (by simp) hw
  exact ⟨h1, h2, fun c hc => (h3 c hc).resolve_right (by simp)⟩

lemma collapseWs_collapseWs (l : List Char) :
    collapseWs (collapseWs l) = collapseWs l := by
  unfold collapseWs
  congr 1
  exact pySplit_joinSpace (pySplit l)
    (fun w hw => ⟨(pySplit_parts hw).1, (pySplit_parts hw).2.1⟩)

lemma mem_collapseWs {c : Char} {l : List Char} (h : c ∈ collapseWs l) :
    c = ' ' ∨ c ∈ l := by
  rcases mem_joinSpace h with h1 | ⟨w, hw, hcw⟩
  · exact Or.inl h1
  · exact Or.inr ((pySplit_parts hw).2.2 c hcw)

/-- C8:  `sanitize_title` is idempotent. -/
theorem sanitize_title_idempotent :
    ∀ (S : List Char), sanitize_title (sanitize_title S) = sanitize_title S := by
  intro S
  by_cases hS : S = []
  · simp [sanitize_title, hS]
  · have hSdef : sanitize_title S =
        collapseWs ((S.filter (fun c => !isControlChar c)).filter sanitizeKeep) := by
      rw [sanitize_title, if_neg hS]
    by_cases hy : sanitize_title S = []
    · rw [hy]
      simp [sanitize_title]
    · rw [sanitize_title, if_neg hy]
      have hmem : ∀ c ∈ sanitize_title S,
          isControlChar c = false ∧ sanitizeKeep c = true := by
        rw [hSdef]
        intro c hc
        rcases mem_collapseWs hc with rfl | hc
        · exact ⟨by decide, by decide⟩
        · have h1 := (List.mem_filter.1 hc).2
          have h2 := (List.mem_filter.1 (List.mem_filter.1 hc).1).2
          exact ⟨by simpa using h2, h1⟩
      have hf1 : (sanitize_title S).filter (fun c => !isControlChar c) =
          sanitize_title S :=
        List.filter_eq_self.2 (fun c hc => by simp [(hmem c hc).1])
      have hf2 : (sanitize_title S).filter sanitizeKeep = sanitize_title S :=
        List.filter_eq_self.2 (fun c hc => (hmem c hc).2)
      rw [hf1, hf2, hSdef]
      exact collapseWs_collapseWs _

/-- JSON value bound to the singular `error` key of a response;
`is_error` only tests the key's presence, never this value. -/
inductive PyJson where
  | null
  | str (s : List Char)
  | obj (stage message : Option (List Char)) (recoverable : Option Bool)
deriving DecidableEq

/-- Entry of a response's `errors` array, as read by `is_error` via
`error.get('stage')` and `error.get('recoverable')`. -/
structure NotifErrorEntry where
  stage : Option (List Char) := none
  message : Option (List Char) := none
  recoverable : Option Bool := none
deriving DecidableEq

/-- Response mapping as inspected by `is_error` in
`src/tests/unit/test_notification_logic.py`: `none` models an absent
key (or a JSON `null` for `title`/`type`, which `.get` makes
indistinguishable from absence). -/
structure NotifResponse where
  errorVal : Option PyJson := none
  errors : Option (List NotifErrorEntry) := none
  title : Option (List Char) := none
  ctype : Option (List Char) := none
deriving DecidableEq

/-- The seven valid content types of `is_error`. -/
def validTypes : List (List Char) :=
  ["article".data, "video".data, "podcast".data, "product".data,
   "code".data, "social".data, "document".data]

/-- Loop body of `is_error`'s `errors` scan: an entry is critical when
its stage is `transcription` or it is explicitly non-recoverable. -/
def entryCritical (e : NotifErrorEntry) : Bool :=
  (e.stage == some "transcription".data) || (e.recoverable == some false)

/-- Python truthiness of a string field fetched with `.get`. -/
def pyTruthyStrOpt : Option (List Char) → Bool
  | some (_ :: _) => true
  | _ => false

/-- Scan of the `errors` array (`if 'errors' in response: for error in
response['errors']: ...`). -/
def errorsCritical : Option (List NotifErrorEntry) → Bool
  | some es => es.any entryCritical
  | none => false

/-- Check `response.get('type') in valid_types` (an absent key yields
`None`, which is not in the list). -/
def ctypeValid : Option (List Char) → Bool
  | some t => validTypes.contains t
  | none => false

/-- `is_error` from `src/tests/unit/test_notification_logic.py`: the
notification decision, first match wins. -/
def is_error (response : NotifResponse) (status_code : Nat := 200) : Bool :=
  if 400 ≤ status_code then true
  else if response.errorVal.isSome then true
  else if errorsCritical response.errors then true
  else if !(pyTruthyStrOpt response.title) then true
  else if !(ctypeValid response.ctype) then true
  else false

/-- C1:  first-match-wins notification rule: status 404 always
notifies; a record with non-empty title, valid type and only a
recoverable `ai_analysis` error does not notify; adding a recoverable
`transcription` entry makes it notify. -/
theorem notification_first_match_rule :
    (∀ (r : NotifResponse), is_error r 404 = true) ∧
    (∀ (r : NotifResponse) (m : Option (List Char)),
      r.errorVal = none →
      pyTruthyStrOpt r.title = true →
      ctypeValid r.ctype = true →
      r.errors = some [{ stage := some "ai_analysis".data, message := m,
                         recoverable := some true }] →
      is_error r 200 = false) ∧
    (∀ (r : NotifResponse) (m m' : Option (List Char)),
      r.errors = some [{ stage := some "ai_analysis".data, message := m,
                         recoverable := some true },
                       { stage := some "transcription".data, message := m',
                         recoverable := some true }] →
      is_error r 200 = true) := by
  refine ⟨fun r => rfl, ?_, ?_⟩
  · intro r m h1 h2 h3 h4
    obtain ⟨e, errs, ti, ty⟩ := r
    dsimp only at h1 h2 h3 h4
    subst h1
    subst h4
    show (if (!pyTruthyStrOpt ti) = true then true
          else if (!ctypeValid ty) = true then true
          else false) = false
    rw [h2, h3]
    rfl
  · intro r m m' h
    obtain ⟨e, errs, ti, ty⟩ := r
    dsimp only at h
    subst h
    cases e with
    | some v => rfl
    | none => rfl

/-- Witness for `notification_first_match_rule` at a concrete record. -/
theorem notification_first_match_rule_witness :
    (is_error { errorVal := none,
                errors := some [{ stage := some "ai_analysis".data,
                                  message := some "Gemini error".data,
                                  recoverable := some true }],
                title := some "Good Article".data,
                ctype := some "article".data } 200 = false) ∧
    (is_error { errors := some [{ stage := some "ai_analysis".data,
                                  message := some "AI failed".data,
                                  recoverable := some true },
                                { stage := some "transcription".data,
                                  message := some "No RSS feed".data,
                                  recoverable := some true }],
                title := some "Episode".data,
                ctype := some "podcast".data } 200 = true) ∧
    (is_error { errorVal := some (PyJson.str "Not found".data) } 404 = true) :=
  ⟨notification_first_match_rule.2.1 _ (some "Gemini error".data)
      rfl (by decide) (by decide) rfl,
   notification_first_match_rule.2.2 _ (some "AI failed".data)
      (some "No RSS feed".data) rfl,
   notification_first_match_rule.1 _⟩

/-- C10:  below status 400, presence of the `error` key notifies
regardless of the bound value — even a JSON `null`. -/
theorem notify_on_error_key_presence :
    ∀ (r : NotifResponse) (s : Nat), s < 400 → r.errorVal.isSome = true →
      is_error r s = true := by
  intro r s hs h
  simp [is_error, Nat.not_le.2 hs, h]

/-- Witness for `notify_on_error_key_presence`: a response whose
`error` key is bound to `null` at status 200. -/
theorem notify_on_error_key_presence_witness :
    (200 < 400 ∧
      ({ errorVal := some PyJson.null } : NotifResponse).errorVal.isSome = true) ∧
    is_error { errorVal := some PyJson.null } 200 = true :=
  ⟨⟨by decide, rfl⟩,
   notify_on_error_key_presence { errorVal := some PyJson.null } 200
     (by decide) rfl⟩

/-- Global title limit from `src/shared/title_utils.py`. -/
def MAX_TITLE_LENGTH : Nat := 70

/-- Python `str.lower()` (ASCII fragment). -/
def pyLower (l : List Char) : List Char :=
  l.map Char.toLower

/-- Python `str.isupper()` (ASCII fragment): at least one cased
character and no lowercase one. -/
def pyIsUpperStr (t : List Char) : Bool :=
  t.any (fun c => c.isAlpha) && t.all (fun c => !c.isLower)

/-- Scanner for `hasRun`: `k` counts the current run of characters
satisfying `p`. -/
def hasRunAux (p : Char → Bool) (n : Nat) : List Char → Nat → Bool
  | [], _ => false
  | c :: cs, k =>
    if p c then (if n ≤ k + 1 then true else hasRunAux p n cs (k + 1))
    else hasRunAux p n cs 0

/-- Does the string contain `n` consecutive characters satisfying `p`
(the `re.search` of `[a-z]{15,}` / `\d{10,}`)? -/
def hasRun (p : Char → Bool) (n : Nat) (l : List Char) : Bool :=
  hasRunAux p n l 0

/-- Scanner for `hasRepeatRun`: current run of `k` copies of `prev`. -/
def repeatRunAux (prev : Char) (k : Nat) : List Char → Bool
  | [] => false
  | c :: cs =>
    if c = prev then
      (if 5 ≤ k + 1 && !(prev = '\n') then true else repeatRunAux prev (k + 1) cs)
    else repeatRunAux c 1 cs

/-- The `re.search` of `(.)\1{4,}`: five consecutive copies of one
character (`.` does not match a newline). -/
def hasRepeatRun : List Char → Bool
  | [] => false
  | c :: cs => repeatRunAux c 1 cs

/-- First adjacent pair of equal words (`words[i] == words[i+1]`, with
`break` after the first hit). -/
def adjRepeat : List (List Char) → Option (List Char)
  | a :: b :: rest => if a = b then some a else adjRepeat (b :: rest)
  | _ => none

/-- The `complete_endings` tuple of `validate_title_quality`. -/
def completeEndings : List (List Char) :=
  ["ing".data, "tion".data, "ment".data, "ness".data, "able".data,
   "ible".data, "ly".data, "ed".data, "er".data, "est".data,
   "ful".data, "less".data]

/-- `title.split()[-1] if title.split() else ''`. -/
def lastWord (t : List Char) : List Char :=
  match (pySplit t).getLast? with
  | some w => w
  | none => []

/-- `last_word[-1].islower()` guarded by `last_word` being truthy. -/
def lastCharIsLower (w : List Char) : Bool :=
  match w.getLast? with
  | some c => c.isLower
  | none => false

/-- Issue messages appended by `validate_title_quality`, one
constructor per distinct message string. -/
inductive TitleIssue where
  | titleEmpty
  | allCaps
  | noSpaces
  | repeatedWord (w : List Char)
  | incompleteEnd
  | garbagePattern
  | veryShort
deriving DecidableEq

/-- Return shape of `validate_title_quality`. -/
structure TitleQuality where
  quality_score : ℚ
  issues : List TitleIssue
  is_acceptable : Bool
deriving DecidableEq

/-- Python `round` to the nearest integer, halves to even (banker's
rounding). -/
def roundHalfEven (x : ℚ) : ℤ :=
  let f := ⌊x⌋
  let r := x - f
  if r < 1/2 then f
  else if 1/2 < r then f + 1
  else if f % 2 = 0 then f else f + 1

/-- Python `round(q, 2)`. -/
def pyRound2 (q : ℚ) : ℚ :=
  (roundHalfEven (q * 100) : ℚ) / 100

/-- Condition for the all-caps penalty (−0.2). -/
def qcAllCaps (t : List Char) : Bool :=
  pyIsUpperStr t && decide (5 < t.length)

/-- Condition for the no-spaces penalty (−0.3). -/
def qcNoSpaces (t : List Char) : Bool :=
  decide (20 < t.length) && !(t.contains ' ')

/-- First repeated adjacent word of `title.lower().split()`, if any
(penalty −0.1). -/
def qcRepeated (t : List Char) : Option (List Char) :=
  adjRepeat (pySplit (pyLower t))

/-- Condition for the near-limit incomplete-last-word penalty (−0.15). -/
def qcIncomplete (t : List Char) : Bool :=
  decide (MAX_TITLE_LENGTH - 5 ≤ t.length) &&
  (!((lastWord t).isEmpty) &&
   !(completeEndings.any (fun suf => suf.isSuffixOf (lastWord t))) &&
   lastCharIsLower (lastWord t))

/-- Condition for the garbage-pattern penalty (−0.3): 15+ consecutive
lowercase letters, one character repeated 5+ times, or 10+ consecutive
digits, searched in `title.lower()`. -/
def qcGarbage (t : List Char) : Bool :=
  hasRun (fun c => 'a' ≤ c && c ≤ 'z') 15 (pyLower t) ||
  hasRepeatRun (pyLower t) ||
  hasRun (fun c => c.isDigit) 10 (pyLower t)

/-- Condition for the very-short penalty (−0.2). -/
def qcShort (t : List Char) : Bool :=
  decide (t.length < 5)

/-- Raw score of `validate_title_quality` before clamping: start at 1.0
and subtract the fixed penalty of every triggered check. -/
def qualityRaw (t : List Char) : ℚ :=
  1 - (if qcAllCaps t then 1/5 else 0)
    - (if qcNoSpaces t then 3/10 else 0)
    - (if (qcRepeated t).isSome then 1/10 else 0)
    - (if qcIncomplete t then 3/20 else 0)
    - (if qcGarbage t then 3/10 else 0)
    - (if qcShort t then 1/5 else 0)

/-- Clamp of the raw score to `[0, 1]` (`score = max(0, min(1, score))`). -/
def qualityScore (t : List Char) : ℚ :=
  max 0 (min 1 (qualityRaw t))

/-- `validate_title_quality` from `src/shared/title_utils.py`. -/
def validate_title_quality (title : List Char) : TitleQuality :=
  if title = [] ∨ pyStrip title = [] then
    { quality_score := 0, issues := [.titleEmpty], is_acceptable := false }
  else
    let t := pyStrip title
    { quality_score := pyRound2 (qualityScore t),
      issues :=
        (if qcAllCaps t then [TitleIssue.allCaps] else []) ++
        (if qcNoSpaces t then [TitleIssue.noSpaces] else []) ++
        (match qcRepeated t with
         | some w => [TitleIssue.repeatedWord w]
         | none => []) ++
        (if qcIncomplete t then [TitleIssue.incompleteEnd] else []) ++
        (if qcGarbage t then [TitleIssue.garbagePattern] else []) ++
        (if qcShort t then [TitleIssue.veryShort] else []),
      is_acceptable := decide ((7 : ℚ)/10 ≤ qualityScore t) }

lemma pyRound2_eq_self {q : ℚ} (h : ∃ n : ℤ, q * 100 = (n : ℚ)) :
    pyRound2 q = q := by
  obtain ⟨n, hn⟩ := h
  rw [pyRound2, hn]
  have hfe : roundHalfEven (n : ℚ) = n := by
    rw [roundHalfEven]
    norm_num [Int.floor_intCast]
  rw [hfe]
  have h100 : (100 : ℚ) ≠ 0 := by norm_num
  field_simp at hn ⊢
  linarith [hn]

lemma qualityRaw_mul_20 (t : List Char) :
    ∃ n : ℤ, qualityRaw t * 20 = (n : ℚ) := by
  have step : ∀ (q p : ℚ) (b : Bool) (k : ℤ), p * 20 = (k : ℚ) →
      (∃ n : ℤ, q * 20 = (n : ℚ)) →
      ∃ n : ℤ, (q - (if b then p else 0)) * 20 = (n : ℚ) := by
    rintro q p b k hk ⟨n, hn⟩
    cases b
    · exact ⟨n, by simpa using hn⟩
    · refine ⟨n - k, ?_⟩
      rw [if_pos rfl]
      push_cast
      rw [sub_mul, hn, hk]
  rw [qualityRaw]
  refine step _ _ _ 4 (by norm_num) ?_
  refine step _ _ _ 6 (by norm_num) ?_
  refine step _ _ _ 3 (by norm_num) ?_
  refine step _ _ _ 2 (by norm_num) ?_
  refine step _ _ _ 6 (by norm_num) ?_
  exact step _ _ _ 4 (by norm_num) ⟨20, by norm_num⟩

lemma qualityScore_mul_100 (t : List Char) :
    ∃ n : ℤ, qualityScore t * 100 = (n : ℚ) := by
  obtain ⟨n, hn⟩ := qualityRaw_mul_20 t
  rw [qualityScore]
  rcases le_total (qualityRaw t) 0 with h0 | h0
  · refine ⟨0, ?_⟩
    rw [min_eq_right (h0.trans (by norm_num)), max_eq_left h0]
    norm_num
  · rcases le_total 1 (qualityRaw t) with h1 | h1
    · refine ⟨100, ?_⟩
      rw [min_eq_left h1, max_eq_right (by norm_num : (0:ℚ) ≤ 1)]
      norm_num
    · refine ⟨5 * n, ?_⟩
      rw [min_eq_right h1, max_eq_right h0]
      push_cast
      linarith [hn]

lemma qualityScore_round_eq (t : List Char) :
    pyRound2 (qualityScore t) = qualityScore t :=
  pyRound2_eq_self (qualityScore_mul_100 t)

lemma qualityScore_mem_unit (t : List Char) :
    0 ≤ qualityScore t ∧ qualityScore t ≤ 1 :=
  ⟨le_max_left 0 _, max_le (by norm_num) (min_le_left 1 _)⟩

/-- C9:  a blank title short-circuits to score 0 with the single issue
"Title is empty" and not acceptable; every returned score lies in
`[0,1]` with `is_acceptable = (score ≥ 0.7)`; and the title
`"A normal readable title"` scores at least 0.9. -/
theorem title_quality_contract :
    (∀ (t : List Char), pyStrip t = [] →
      validate_title_quality t =
        { quality_score := 0, issues := [TitleIssue.titleEmpty],
          is_acceptable := false }) ∧
    (∀ (t : List Char),
      0 ≤ (validate_title_quality t).quality_score ∧
      (validate_title_quality t).quality_score ≤ 1 ∧
      (validate_title_quality t).is_acceptable =
        decide ((7 : ℚ)/10 ≤ (validate_title_quality t).quality_score)) ∧
    (9 : ℚ)/10 ≤
      (validate_title_quality "A normal readable title".data).quality_score := by
  refine ⟨?_, ?_, ?_⟩
  · intro t h
    rw [validate_title_quality, if_pos (Or.inr h)]
  · intro t
    by_cases hb : t = [] ∨ pyStrip t = []
    · rw [validate_title_quality, if_pos hb]
      norm_num
    · rw [validate_title_quality, if_neg hb]
      dsimp only
      rw [qualityScore_round_eq]
      exact ⟨(qualityScore_mem_unit _).1, (qualityScore_mem_unit _).2, rfl⟩
  · have hb : ¬("A normal readable title".data = [] ∨
        pyStrip "A normal readable title".data = []) := by decide
    rw [validate_title_quality, if_neg hb]
    dsimp only
    rw [qualityScore_round_eq]
    have hraw : qualityRaw (pyStrip "A normal readable title".data) = 1 := by
      have h1 : qcAllCaps (pyStrip "A normal readable title".data) = false := by
        decide
      have h2 : qcNoSpaces (pyStrip "A normal readable title".data) = false := by
        decide
      have h3 : qcRepeated (pyStrip "A normal readable title".data) = none := by
        decide
      have h4 : qcIncomplete (pyStrip "A normal readable title".data) = false := by
        decide
      have h5 : qcGarbage (pyStrip "A normal readable title".data) = false := by
        decide
      have h6 : qcShort (pyStrip "A normal readable title".data) = false := by
        decide
      rw [qualityRaw, h1, h2, h3, h4, h5, h6]
      norm_num
    rw [qualityScore, hraw]
    norm_num

/-- Witness for `title_quality_contract` at a blank input. -/
theorem title_quality_contract_witness :
    (pyStrip "   ".data = [] ∧
      validate_title_quality "   ".data =
        { quality_score := 0, issues := [TitleIssue.titleEmpty],
          is_acceptable := false }) :=
  ⟨by decide, title_quality_contract.1 "   ".data (by decide)⟩

/-- Python `str.split(sep)` keeping empty fields, accumulator form. -/
def splitOnCharAux (sep : Char) : List Char → List Char → List (List Char)
  | [], acc => [acc.reverse]
  | c :: cs, acc =>
    if c = sep then acc.reverse :: splitOnCharAux sep cs []
    else splitOnCharAux sep cs (c :: acc)

/-- Python `str.split(sep)` for a one-character separator. -/
def splitOnChar (sep : Char) (l : List Char) : List (List Char) :=
  splitOnCharAux sep l []

/-- `'\n'.join(lines)`. -/
def joinLines : List (List Char) → List Char
  | [] => []
  | [w] => w
  | w :: ws => w ++ '\n' :: joinLines ws

/-- ASCII fragment of the `\w` class of Python `re`. -/
def isWordCharB (c : Char) : Bool :=
  c.isAlphanum || c = '_'

/-- Accumulator loop behind `wordTokens`. -/
def tokensAux : List Char → List Char → List (List Char)
  | [], acc => if acc = [] then [] else [acc.reverse]
  | c :: cs, acc =>
    if isWordCharB c then tokensAux cs (c :: acc)
    else if acc = [] then tokensAux cs [] else acc.reverse :: tokensAux cs []

/-- `re.findall(r'\w+', s)`: maximal runs of word characters. -/
def wordTokens (l : List Char) : List (List Char) :=
  tokensAux l []

/-- Boolean list-as-set inclusion used for Python `set` equality. -/
def listSubsetB (a b : List (List Char)) : Bool :=
  a.all (fun x => b.contains x)

/-- Python `set(xs) == set(ys)` on word-token lists. -/
def wordSetEq (a b : List (List Char)) : Bool :=
  listSubsetB a b && listSubsetB b a

/-- Character class stripped from the front of a section label by
`_strip_icon`: the emoji blocks of its regex plus whitespace. -/
def isIconStripChar (c : Char) : Bool :=
  (0x1F300 ≤ c.val && c.val ≤ 0x1F9FF) ||
  (0x2600 ≤ c.val && c.val ≤ 0x27BF) ||
  (0xFE00 ≤ c.val && c.val ≤ 0xFE0F) ||
  (0x1F1E0 ≤ c.val && c.val ≤ 0x1F1FF) ||
  pyIsSpaceB c

/-- `_strip_icon` from `src/shared/analysis_utils.py`. -/
def stripIcon (text : List Char) : List Char :=
  if text = [] then text
  else pyStrip (text.dropWhile isIconStripChar)

/-- Matcher for `^\d+\.\s*\*\*([^*]+)\*\*[:\s]*(.*?)$` applied to
`line.strip()`: returns the label (group 1) and the same-line remainder
(group 2, with its leading `[:\s]` run consumed by the greedy
`[:\s]*`). -/
def matchNumberedHeader (line : List Char) : Option (List Char × List Char) :=
  let s := pyStrip line
  let ds := s.takeWhile (fun c => c.isDigit)
  if ds = [] then none
  else
    match s.drop ds.length with
    | '.' :: rest1 =>
      match rest1.dropWhile pyIsSpaceB with
      | '*' :: '*' :: rest3 =>
        let g1 := rest3.takeWhile (fun c => !(c = '*'))
        if g1 = [] then none
        else
          match rest3.drop g1.length with
          | '*' :: '*' :: rest4 =>
            some (g1, rest4.dropWhile (fun c => c = ':' || pyIsSpaceB c))
          | _ => none
      | _ => none
    | _ => none

/-- Matcher for the fallback `^##\s*(.+?)\s*$` applied to
`line.strip()`: the group is the rest stripped of surrounding
whitespace, except that an all-whitespace rest still matches with a
single-space group (the lazy `.+?` then captures one space). -/
def matchHeading (line : List Char) : Option (List Char) :=
  match pyStrip line with
  | '#' :: '#' :: rest =>
    if rest = [] then none
    else if pyStrip rest = [] then some [' ']
    else some (pyStrip rest)
  | _ => none

/-- Python `dict` assignment `d[k] = v`: overwrite in place, append new
keys at the end. -/
def dictInsert (d : List (List Char × List Char)) (k v : List Char) :
    List (List Char × List Char) :=
  match d with
  | [] => [(k, v)]
  | (k', v') :: rest =>
    if k' = k then (k', v) :: rest else (k', v') :: dictInsert rest k v

/-- Flush of the accumulated section:
`sections[current_section] = '\n'.join(current_content).strip()`. -/
def flushSection (sections : List (List Char × List Char))
    (cur : Option (List Char)) (content : List (List Char)) :
    List (List Char × List Char) :=
  match cur with
  | some name => dictInsert sections name (pyStrip (joinLines content))
  | none => sections

/-- Main loop of `parse_gemini_analysis` over the numbered-header
format. -/
def parseLinesNumbered : List (List Char) → Option (List Char) →
    List (List Char) → List (List Char × List Char) →
    List (List Char × List Char)
  | [], cur, content, sections => flushSection sections cur content
  | line :: rest, cur, content, sections =>
    match matchNumberedHeader line with
    | some (g1, g2) =>
      parseLinesNumbered rest (some (stripIcon (pyStrip g1)))
        (if pyStrip g2 = [] then [] else [pyStrip g2])
        (flushSection sections cur content)
    | none =>
      match cur with
      | some _ => parseLinesNumbered rest cur (content ++ [line]) sections
      | none => parseLinesNumbered rest cur content sections

/-- Fallback loop of `parse_gemini_analysis` over the `##` heading
format (entered with no current section, since the first loop found no
header). -/
def parseLinesHeading : List (List Char) → Option (List Char) →
    List (List Char) → List (List Char × List Char) →
    List (List Char × List Char)
  | [], cur, content, sections => flushSection sections cur content
  | line :: rest, cur, content, sections =>
    match matchHeading line with
    | some g =>
      parseLinesHeading rest (some (stripIcon (pyStrip g))) []
        (flushSection sections cur content)
    | none =>
      match cur with
      | some _ => parseLinesHeading rest cur (content ++ [line]) sections
      | none => parseLinesHeading rest cur content sections

/-- `parse_gemini_analysis` from `src/shared/analysis_utils.py`. -/
def parse_gemini_analysis (analysis_text : List Char) :
    List (List Char × List Char) :=
  if analysis_text = [] then []
  else
    let lines := splitOnChar '\n' analysis_text
    let sections := parseLinesNumbered lines none [] []
    if sections = [] then parseLinesHeading lines none [] []
    else sections

/-- Required section names (`REQUIRED_ANALYSIS_SECTIONS`). -/
def REQUIRED_ANALYSIS_SECTIONS : List (List Char) :=
  ["Visual Content".data, "Audio Content".data, "Style & Production".data,
   "Mood & Tone".data, "Key Messages".data, "Content Category".data]

/-- Error messages of `validate_analysis_sections`, one constructor per
message string. -/
inductive SectionError where
  | analysisMissing
  | missingSection (name : List Char)
  | emptySection (name : List Char)
deriving DecidableEq

/-- Return shape of `validate_analysis_sections`. -/
structure SectionValidation where
  valid : Bool
  sections : List (List Char × List Char)
  missing : List (List Char)
  empty : List (List Char)
  errors : List SectionError
deriving DecidableEq

/-- Exact-key lookup (`sections.get(section_name)`). -/
def lookupExact (sections : List (List Char × List Char))
    (name : List Char) : Option (List Char) :=
  (sections.find? (fun kv => decide (kv.1 = name))).map (·.2)

/-- Case-insensitive lookup, first hit in insertion order. -/
def lookupCI (sections : List (List Char × List Char))
    (name : List Char) : Option (List Char) :=
  (sections.find? (fun kv => decide (pyLower kv.1 = pyLower name))).map (·.2)

/-- Word-token-set lookup
(`set(re.findall(r'\w+', name.lower())) == set(... key.lower())`),
first hit in insertion order. -/
def lookupWordSet (sections : List (List Char × List Char))
    (name : List Char) : Option (List Char) :=
  (sections.find? (fun kv =>
    wordSetEq (wordTokens (pyLower name)) (wordTokens (pyLower kv.1)))).map (·.2)

/-- The three-stage section lookup of `validate_analysis_sections`:
exact, then case-insensitive, then word-token-set. -/
def lookupSection (sections : List (List Char × List Char))
    (name : List Char) : Option (List Char) :=
  match lookupExact sections name with
  | some v => some v
  | none =>
    match lookupCI sections name with
    | some v => some v
    | none => lookupWordSet sections name

/-- Per-required-name step of `validate_analysis_sections`. -/
def sectionStep (sections : List (List Char × List Char))
    (acc : SectionValidation) (name : List Char) : SectionValidation :=
  match lookupSection sections name with
  | none =>
    { acc with missing := acc.missing ++ [name],
               errors := acc.errors ++ [SectionError.missingSection name],
               valid := false }
  | some content =>
    if pyStrip content = [] then
      { acc with empty := acc.empty ++ [name],
                 errors := acc.errors ++ [SectionError.emptySection name],
                 valid := false }
    else acc

/-- `validate_analysis_sections` from `src/shared/analysis_utils.py`. -/
def validate_analysis_sections (analysis_text : List Char)
    (required_sections : List (List Char) := REQUIRED_ANALYSIS_SECTIONS)
    (include_transcript : Bool := false) : SectionValidation :=
  let required :=
    if include_transcript then required_sections ++ ["Transcript".data]
    else required_sections
  if analysis_text = [] then
    { valid := false, sections := [], missing := required, empty := [],
      errors := [SectionError.analysisMissing] }
  else
    let sections := parse_gemini_analysis analysis_text
    required.foldl (sectionStep sections)
      { valid := true, sections := sections, missing := [], empty := [],
        errors := [] }

example :
    parse_gemini_analysis "1. **Mood and Tone**: Calm and focused".data =
      [("Mood and Tone".data, "Calm and focused".data)] := by decide

/-- C4 is violated by the code:  the word-token-set fallback compares
the token sets without dropping connector words, so the parsed header
"Mood and Tone" (tokens `{mood, and, tone}`) does not satisfy the
required name "Mood & Tone" (tokens `{mood, tone}`), and the section is
reported missing — contradicting the code's own comment
("Mood & Tone" matches "Mood and Tone"). -/
theorem mood_and_tone_reported_missing :
    parse_gemini_analysis "1. **Mood and Tone**: Calm and focused".data =
      [("Mood and Tone".data, "Calm and focused".data)] ∧
    (validate_analysis_sections "1. **Mood and Tone**: Calm and focused".data
        ["Mood & Tone".data] false).missing = ["Mood & Tone".data] ∧
    (validate_analysis_sections "1. **Mood and Tone**: Calm and focused".data
        ["Mood & Tone".data] false).valid = false := by decide

/-- Digit-string parse used by Python `int(str)`. -/
def digitsToNat (ds : List Char) : Option Nat :=
  if ds.isEmpty || !(ds.all Char.isDigit) then none
  else some (ds.foldl (fun a c => a * 10 + (c.toNat - 48)) 0)

/-- Python `int(str)`: optional surrounding whitespace, optional sign,
then decimal digits; `none` models the `ValueError`. -/
def pyInt (s : List Char) : Option Int :=
  match pyStrip s with
  | '+' :: ds => (digitsToNat ds).map Int.ofNat
  | '-' :: ds => (digitsToNat ds).map (fun n => -(n : Int))
  | ds => (digitsToNat ds).map Int.ofNat

/-- Enclosure of an RSS entry, as read by `find_episode_in_rss`. -/
structure RssEnclosure where
  etype : Option (List Char) := none
  href : Option (List Char) := none
  url : Option (List Char) := none
deriving DecidableEq

/-- Link of an RSS entry, as read by `find_episode_in_rss`. -/
structure RssLink where
  ltype : Option (List Char) := none
  href : Option (List Char) := none
deriving DecidableEq

/-- Feed entry produced by the external feed parser and consumed by
`find_episode_in_rss`. -/
structure RssEntry where
  title : Option (List Char) := none
  itunes_duration : Option (List Char) := none
  enclosures : List RssEnclosure := []
  links : List RssLink := []
deriving DecidableEq

/-- Parse of `entry.itunes_duration` into minutes (lines 239-251 of
`src/webpage-enricher/main.py`): `HH:MM:SS` and `MM:SS` forms via
`int(...)` whose `ValueError` escapes to the outer handler (`.error`),
and a bare-seconds form whose failure is swallowed (`try/except:
pass`). -/
def parseItunesDuration (dur : List Char) : Except Unit (Option Int) :=
  if dur.contains ':' then
    let parts := splitOnChar ':' dur
    if parts.length = 2 then
      match pyInt (parts.headD []) with
      | some n => .ok (some n)
      | none => .error ()
    else if parts.length = 3 then
      match pyInt (parts.headD []), pyInt ((parts.drop 1).headD []) with
      | some h, some m => .ok (some (h * 60 + m))
      | _, _ => .error ()
    else .ok none
  else
    match pyInt dur with
    | some n => .ok (some (Int.fdiv n 60))
    | none => .ok none

/-- Score of one candidate: the external string-similarity ratio of the
normalized titles, plus the fixed `+0.2` bonus when both durations are
known (and truthy) and differ by at most 2 minutes. -/
def entryScore (ratio : List Char → List Char → ℚ) (search_title : List Char)
    (duration_minutes : Option Int) (entry : RssEntry) : Except Unit ℚ :=
  let entry_title := pyStrip (pyLower (entry.title.getD []))
  let score := ratio search_title entry_title
  match duration_minutes with
  | none => .ok score
  | some d =>
    if d = 0 then .ok score
    else
      match entry.itunes_duration with
      | none => .ok score
      | some dur =>
        match parseItunesDuration dur with
        | .error e => .error e
        | .ok none => .ok score
        | .ok (some ed) =>
          if ed ≠ 0 ∧ |ed - d| ≤ 2 then .ok (score + 1/5) else .ok score

/-- Maximum-tracking loop of `find_episode_in_rss`
(`if score > best_score: best_score, best_match = score, entry`). -/
def bestOf (ratio : List Char → List Char → ℚ) (search_title : List Char)
    (duration_minutes : Option Int) :
    List RssEntry → Option RssEntry × ℚ → Except Unit (Option RssEntry × ℚ)
  | [], best => .ok best
  | e :: es, (bm, bs) =>
    match entryScore ratio search_title duration_minutes e with
    | .error err => .error err
    | .ok score =>
      if bs < score then
        bestOf ratio search_title duration_minutes es (some e, score)
      else bestOf ratio search_title duration_minutes es (bm, bs)

/-- Python string truthiness normalization: an empty-string value
behaves exactly like an absent one everywhere it is used here. -/
def truthyStr : Option (List Char) → Option (List Char)
  | some (c :: cs) => some (c :: cs)
  | _ => none

/-- `enc.get('href') or enc.get('url')`. -/
def truthyOr (a b : Option (List Char)) : Option (List Char) :=
  match truthyStr a with
  | some u => some u
  | none => truthyStr b

/-- `enc.get('type', '').startswith('audio/')`. -/
def startsWithAudio (s : Option (List Char)) : Bool :=
  "audio/".data.isPrefixOf (s.getD [])

/-- Audio-URL extraction from the best match: first audio-typed
enclosure's `href or url`, else first audio-typed link's `href`. -/
def audioUrlOf (best : RssEntry) : Option (List Char) :=
  let fromEnc :=
    match best.enclosures.find? (fun enc => startsWithAudio enc.etype) with
    | some enc => truthyOr enc.href enc.url
    | none => none
  match fromEnc with
  | some u => some u
  | none =>
    match best.links.find? (fun lnk => startsWithAudio lnk.ltype) with
    | some lnk => truthyStr lnk.href
    | none => none

/-- Failure messages of `find_episode_in_rss`, one constructor per
message; `noMatch` carries the interpolated best score and
`exceptionRaised` stands for the outer `except Exception` result. -/
inductive FindEpisodeError where
  | noEpisodes
  | noMatch (best_score : ℚ)
  | noAudioUrl
  | exceptionRaised
deriving DecidableEq

/-- Result of `find_episode_in_rss`. -/
inductive FindEpisodeResult where
  | failure (err : FindEpisodeError)
  | success (audio_url : List Char) (episode_title : Option (List Char))
      (match_score : ℚ)
deriving DecidableEq

/-- `find_episode_in_rss` from `src/webpage-enricher/main.py`, with the
parsed feed entries and difflib's `SequenceMatcher(...).ratio` supplied
as collaborators. -/
def find_episode_in_rss (ratio : List Char → List Char → ℚ)
    (entries : List RssEntry) (episode_title : List Char)
    (duration_minutes : Option Int) : FindEpisodeResult :=
  if entries = [] then .failure .noEpisodes
  else
    let search_title := pyStrip (pyLower episode_title)
    match bestOf ratio search_title duration_minutes entries (none, 0) with
    | .error _ => .failure .exceptionRaised
    | .ok (bm, bs) =>
      if bs < 1/2 then .failure (.noMatch bs)
      else
        match bm with
        | none => .failure .exceptionRaised
        | some best =>
          match audioUrlOf best with
          | none => .failure .noAudioUrl
          | some u => .success u best.title bs

/-- C6:  whenever the best (bonus-included) score stays below 0.5 the
matcher fails — even for a single-entry feed, which the witness
instantiates — and the failure carries the best score; and a success is
only ever reported with a best score of at least 0.5. -/
theorem episode_match_threshold :
    (∀ (ratio : List Char → List Char → ℚ) (entries : List RssEntry)
       (t : List Char) (d : Option Int) (bm : Option RssEntry) (bs : ℚ),
      entries ≠ [] →
      bestOf ratio (pyStrip (pyLower t)) d entries (none, 0) = .ok (bm, bs) →
      bs < 1/2 →
      find_episode_in_rss ratio entries t d =
        .failure (.noMatch bs)) ∧
    (∀ (ratio : List Char → List Char → ℚ) (entries : List RssEntry)
       (t : List Char) (d : Option Int) (u : List Char)
       (ti : Option (List Char)) (sc : ℚ),
      find_episode_in_rss ratio entries t d = .success u ti sc →
      1/2 ≤ sc) := by
  constructor
  · intro ratio entries t d bm bs he hb hlt
    rw [find_episode_in_rss, if_neg he]
    simp only [hb]
    rw [if_pos hlt]
  · intro ratio entries t d u ti sc h
    rw [find_episode_in_rss] at h
    by_cases he : entries = []
    · rw [if_pos he] at h
      exact FindEpisodeResult.noConfusion h
    · rw [if_neg he] at h
      simp only at h
      cases hb : bestOf ratio (pyStrip (pyLower t)) d entries (none, 0) with
      | error e =>
        rw [hb] at h
        exact FindEpisodeResult.noConfusion h
      | ok p =>
        obtain ⟨bm, bs⟩ := p
        rw [hb] at h
        dsimp only at h
        by_cases hlt : bs < 1/2
        · rw [if_pos hlt] at h
          exact FindEpisodeResult.noConfusion h
        · rw [if_neg hlt] at h
          cases bm with
          | none => exact FindEpisodeResult.noConfusion h
          | some best =>
            dsimp only at h
            cases ha : audioUrlOf best with
            | none =>
              rw [ha] at h
              exact FindEpisodeResult.noConfusion h
            | some u' =>
              rw [ha] at h
              dsimp only at h
              injection h with h1 h2 h3
              subst h3
              exact le_of_not_lt hlt

/-- Constant-zero similarity used by the witness below. -/
def constRatioZero : List Char → List Char → ℚ := fun _ _ => 0

/-- Single feed entry used by the witness below. -/
def sampleEntry : RssEntry := { title := some "Another Episode".data }

/-- Witness for `episode_match_threshold`: a one-entry feed whose only
candidate scores below 0.5 is rejected with that score reported. -/
theorem episode_match_threshold_witness :
    (([sampleEntry] : List RssEntry) ≠ [] ∧
     bestOf constRatioZero (pyStrip (pyLower "Target Episode".data)) none
       [sampleEntry] (none, 0) = .ok (none, 0) ∧
     ((0 : ℚ) < 1/2)) ∧
    (find_episode_in_rss constRatioZero [sampleEntry] "Target Episode".data
        none = .failure (.noMatch 0)) ∧
    ((2 : ℚ)/5 < 1/2 → 1/2 ≤ (2 : ℚ)/5 → False) := by
  have hb : bestOf constRatioZero (pyStrip (pyLower "Target Episode".data)) none
      [sampleEntry] (none, 0) = .ok (none, 0) := by
    rw [bestOf]
    have hs : entryScore constRatioZero
        (pyStrip (pyLower "Target Episode".data)) none sampleEntry =
        .ok 0 := rfl
    rw [hs]
    norm_num [bestOf]
  refine ⟨⟨by simp, hb, by norm_num⟩, ?_, by norm_num⟩
  exact episode_match_threshold.1 constRatioZero [sampleEntry]
    "Target Episode".data none none 0 (by simp) hb (by norm_num)

/-- Error message of `fetch_webpage`, one constructor per f-string. -/
inductive FetchErrMsg where
  | timedOut
  | httpError (status : Nat)
  | requestFailed (detail : List Char)
deriving DecidableEq

/-- Outcome of the underlying `requests.get(...)` +
`raise_for_status()` call (external collaborator): a successful
response has status < 400, otherwise `HTTPError` carries the status. -/
inductive FetchOutcome where
  | ok (html : List Char)
  | timeout
  | httpError (status : Nat)
  | requestException (detail : List Char)
deriving DecidableEq

/-- `fetch_webpage` from `src/webpage-enricher/main.py`: returns
`(html, error)`. -/
def fetch_webpage : FetchOutcome → Option (List Char) × Option FetchErrMsg
  | .ok html => (some html, none)
  | .timeout => (none, some .timedOut)
  | .httpError s => (none, some (.httpError s))
  | .requestException d => (none, some (.requestFailed d))

/-- Message of an error object in an `enrich_webpage` response, one
constructor per f-string of the source. -/
inductive RespErrMsg where
  | fetchMsg (m : FetchErrMsg)
  | aiText (s : List Char)
  | transcriptionFailed (s : List Char)
  | episodeNotFound (s : List Char)
  | rssNotFound (s : List Char)
  | processing (s : List Char)
deriving DecidableEq

/-- Error object `{stage, message, recoverable}` in a response. -/
structure RespErrObj where
  stage : List Char
  message : RespErrMsg
  recoverable : Bool
deriving DecidableEq

/-- Value of a response's singular `error` field (the missing-url path
binds a plain string, the others an object). -/
inductive RespErrVal where
  | str (s : List Char)
  | obj (e : RespErrObj)
deriving DecidableEq

/-- Response body of `enrich_webpage`, restricted to the fields the
claims observe (`title`, singular `error`, `errors` array); the pure
data fields (url, domain, author, dates, price, snippets, summaries)
are threaded collaborator values with no control effect and are
elided. -/
structure EnrichResponse where
  title : Option (List Char) := none
  error : Option RespErrVal := none
  errors : Option (List RespErrObj) := none
deriving DecidableEq

/-- Result of `fetch_spotify_episode` (external collaborator), with
only the fields `enrich_webpage` branches on. -/
structure SpotifyData where
  success : Bool
  title : Option (List Char) := none
  show_name : Option (List Char) := none
deriving DecidableEq

/-- One invocation's request data plus every external-collaborator
outcome `enrich_webpage` branches on. -/
structure EnrichInput where
  isOptionsRequest : Bool := false
  raisesException : Option (List Char) := none
  jsonUrl : Option (List Char) := none
  skipAi : Bool := false
  urlIsSpotifyEpisode : Bool := false
  spotify : SpotifyData := { success := false }
  spotifyAiError : Option (List Char) := none
  rssFound : Bool := false
  rssError : Option (List Char) := none
  episodeAudioUrl : Option (List Char) := none
  episodeError : Option (List Char) := none
  transcribeText : Option (List Char) := none
  transcribeError : Option (List Char) := none
  fetchOutcome : FetchOutcome := .ok []
  aiError : Option (List Char) := none
  pageTitle : Option (List Char) := none
deriving DecidableEq

/-- Transcription-stage error of the Spotify path (lines 751-778 of
`src/webpage-enricher/main.py`): skipped entirely without show name and
title, otherwise the first failing chain stage sets the message. -/
def spotifyTranscriptionError (inp : EnrichInput) : Option RespErrMsg :=
  if pyTruthyStrOpt inp.spotify.show_name && pyTruthyStrOpt inp.spotify.title then
    if inp.rssFound then
      match inp.episodeAudioUrl with
      | some _ =>
        match inp.transcribeText with
        | some _ => none
        | none => some (.transcriptionFailed (inp.transcribeError.getD []))
      | none => some (.episodeNotFound (inp.episodeError.getD []))
    else some (.rssNotFound (inp.rssError.getD []))
  else none

/-- Errors array of the Spotify path: an `ai_analysis` entry when the
inner AI call failed, then a `transcription` entry when the
transcription chain failed — both hard-coded `recoverable: True`. -/
def spotifyErrors (inp : EnrichInput) : List RespErrObj :=
  (match inp.spotifyAiError with
   | some e => [{ stage := ("ai_analysis".data), message := .aiText e,
                  recoverable := true }]
   | none => []) ++
  (match spotifyTranscriptionError inp with
   | some m => [{ stage := ("transcription".data), message := m,
                  recoverable := true }]
   | none => [])

/-- `enrich_webpage` from `src/webpage-enricher/main.py`, as a function
of the request plus collaborator outcomes, returning the response body
and the HTTP status. -/
def enrich_webpage (inp : EnrichInput) : EnrichResponse × Nat :=
  if inp.isOptionsRequest then ({}, 204)
  else
    match inp.raisesException with
    | some msg =>
      ({ error := some (.obj
           { stage := ("processing".data),
             message := .processing msg, recoverable := false }) }, 500)
    | none =>
      match inp.jsonUrl with
      | none => ({ error := some (.str "Missing required field: url".data) }, 400)
      | some _url =>
        if inp.urlIsSpotifyEpisode && inp.spotify.success then
          ({ title := inp.spotify.title,
             errors := if spotifyErrors inp = [] then none
                       else some (spotifyErrors inp) }, 200)
        else
          match (fetch_webpage inp.fetchOutcome).2 with
          | some ferr =>
            ({ error := some (.obj
                 { stage := ("fetch".data),
                   message := .fetchMsg ferr, recoverable := true }) }, 200)
          | none =>
            ({ title := inp.pageTitle,
               error :=
                 match (if inp.skipAi then none else inp.aiError) with
                 | some e => some (.obj
                     { stage := ("ai_analysis".data),
                       message := .aiText e, recoverable := true })
                 | none => none }, 200)

/-- POST of a URL whose fetch fails with HTTP 404. -/
def fetch404Input : EnrichInput :=
  { jsonUrl := some "https://example.com/missing".data,
    fetchOutcome := .httpError 404 }

/-- C2 fails as stated: a fetch failure that prevents assembling any
usable record surfaces as the singular `error` field with HTTP status
200, not ≥ 400 (the source comments "Return 200 with error in body per
ARCHITECTURE.md"). -/
theorem singular_error_status_counterexample :
    (enrich_webpage fetch404Input).1.error.isSome = true ∧
    ¬ (400 ≤ (enrich_webpage fetch404Input).2) := by decide

/-- C2 (amended):  a response carrying the singular `error` field has
status 200, 400 or 500 — 400 and 500 only on the missing-url and
unhandled-exception paths; a fetch failure surfaces as the singular
fetch-stage `error` object with status 200 (the 200-with-error-body
convention), rather than with a failure status. -/
theorem singular_error_status :
    (∀ (inp : EnrichInput), (enrich_webpage inp).1.error.isSome = true →
      (enrich_webpage inp).2 = 200 ∨ (enrich_webpage inp).2 = 400 ∨
        (enrich_webpage inp).2 = 500) ∧
    (∀ (inp : EnrichInput) (u : List Char) (ferr : FetchErrMsg),
      inp.isOptionsRequest = false →
      inp.raisesException = none →
      inp.jsonUrl = some u →
      (inp.urlIsSpotifyEpisode && inp.spotify.success) = false →
      (fetch_webpage inp.fetchOutcome).2 = some ferr →
      (enrich_webpage inp).1.error =
        some (.obj { stage := ("fetch".data), message := .fetchMsg ferr,
                      recoverable := true }) ∧
      (enrich_webpage inp).2 = 200) := by
  constructor
  · intro inp h
    rw [enrich_webpage] at h ⊢
    by_cases h1 : inp.isOptionsRequest
    · rw [if_pos h1] at h
      exact Bool.noConfusion h
    · rw [if_neg h1] at h ⊢
      cases h2 : inp.raisesException with
      | some msg => right; right; rfl
      | none =>
        cases h3 : inp.jsonUrl with
        | none => right; left; rfl
        | some u =>
          left
          dsimp only
          split
          · rfl
          · cases hf : (fetch_webpage inp.fetchOutcome).2 with
            | some ferr => rfl
            | none => rfl
  · intro inp u ferr h1 h2 h3 h4 h5
    rw [enrich_webpage, if_neg (by rw [h1]; exact Bool.false_ne_true), h2, h3]
    dsimp only
    rw [if_neg (by rw [h4]; exact Bool.false_ne_true), h5]
    exact ⟨rfl, rfl⟩

/-- Witness for `singular_error_status` at the 404-fetch input. -/
theorem singular_error_status_witness :
    ((enrich_webpage fetch404Input).1.error.isSome = true ∧
      ((enrich_webpage fetch404Input).2 = 200 ∨
       (enrich_webpage fetch404Input).2 = 400 ∨
       (enrich_webpage fetch404Input).2 = 500)) ∧
    ((fetch_webpage fetch404Input.fetchOutcome).2 =
        some (FetchErrMsg.httpError 404) ∧
      (enrich_webpage fetch404Input).1.error =
        some (.obj { stage := ("fetch".data),
                     message := .fetchMsg (.httpError 404),
                     recoverable := true }) ∧
      (enrich_webpage fetch404Input).2 = 200) :=
  ⟨⟨by decide, singular_error_status.1 fetch404Input (by decide)⟩,
   ⟨by decide,
    singular_error_status.2 fetch404Input "https://example.com/missing".data
      (FetchErrMsg.httpError 404) rfl rfl rfl rfl rfl⟩⟩

/-- Every fetch-stage error object `enrich_webpage` emits carries
`recoverable = true`, whatever the fetch outcome was: the code never
classifies 4xx client errors as non-recoverable. -/
lemma fetch_stage_error_always_recoverable :
    ∀ (inp : EnrichInput) (e : RespErrObj),
      (enrich_webpage inp).1.error =
        some (.obj e) → e.stage = "fetch".data →
      e.recoverable = true := by
  intro inp e h hs
  rw [enrich_webpage] at h
  by_cases h1 : inp.isOptionsRequest
  · rw [if_pos h1] at h
    exact Option.noConfusion h
  · rw [if_neg h1] at h
    cases h2 : inp.raisesException with
    | some msg =>
      rw [h2] at h
      dsimp only at h
      injection h with h
      injection h with h
      rw [← h] at hs
      exact absurd
        (show ("processing".data : List Char) = "fetch".data from hs)
        (by decide)
    | none =>
      rw [h2] at h
      cases h3 : inp.jsonUrl with
      | none =>
        rw [h3] at h
        dsimp only at h
        injection h with h
        injection h
      | some u =>
        rw [h3] at h
        dsimp only at h
        by_cases h4 : inp.urlIsSpotifyEpisode && inp.spotify.success
        · rw [if_pos h4] at h
          exact Option.noConfusion h
        · rw [if_neg h4] at h
          cases h5 : (fetch_webpage inp.fetchOutcome).2 with
          | some fm =>
            rw [h5] at h
            dsimp only at h
            injection h with h
            injection h with h
            rw [← h]
          | none =>
            rw [h5] at h
            dsimp only at h
            cases h6 : (if inp.skipAi then none else inp.aiError) with
            | none =>
              rw [h6] at h
              exact Option.noConfusion h
            | some e2 =>
              rw [h6] at h
              dsimp only at h
              injection h with h
              injection h with h
              rw [← h] at hs
              exact absurd
                (show ("ai_analysis".data : List Char) = "fetch".data from hs)
                (by decide)

/-- C5 fails on the code (the claim matches the spec and the
expectation documented in `test_error_contracts.py`, but the code
hard-codes `recoverable: True` for every fetch error): the emitted
error object for an HTTP 404 fetch — a 4xx other than 429 — carries
`recoverable = true`, not `false`. -/
theorem fetch_error_recoverable_flag :
    (enrich_webpage fetch404Input).1.error =
      some (.obj { stage := ("fetch".data),
                   message := .fetchMsg (.httpError 404),
                   recoverable := true }) ∧
    ¬ ((enrich_webpage fetch404Input).1.error =
        some (.obj { stage := ("fetch".data),
                     message := .fetchMsg (.httpError 404),
                     recoverable := false })) := by decide
